import Mathlib

/-!
Verification of the consensus binding-site pipeline of
`code/focused_library_similar_proteins/01_binding_site_definition.ipynb`.

The notebook defines `binding_site_definition` (cell 13) and imports the
helper functions `mulitple_binding_sites_residue_ids` and
`binding_site_residues_by_coverage` (plus two formatting helpers) from a
`binding_site_definition` module whose source file is not part of the
repository; those helpers are modelled here from the specification
(sections 4.1–4.3).  Machine floats of the original are embedded as `ℚ`;
raised exceptions are embedded as `Except`.  Rational arithmetic is
expressed through `Rat.divInt`-based helpers (`qadd`, `qsub`, `qmul`,
`qdivNat`) so that every definition evaluates by kernel reduction; each
helper is proved equal to the corresponding field operation on `ℚ`.
-/

/-- Residue identifier: an integer sequence number (spec §3). -/
abbrev ResidueId := ℕ

/-- A 3D atom coordinate.  Coordinates are embedded as rationals. -/
structure Atom where
  x : ℚ
  y : ℚ
  z : ℚ
deriving DecidableEq

/-- A residue of a structure: a name, a residue identifier, a solvent flag
and the list of its atoms' coordinates (spec §3). -/
structure Residue where
  name : String
  resId : ResidueId
  isSolvent : Bool
  atoms : List Atom
deriving DecidableEq

/-- A structure loaded from one PDB file: its list of residues (spec §3). -/
structure PdbStructure where
  residues : List Residue
deriving DecidableEq

/-- Modelled from the spec: the error raised by per-structure site
extraction when no residue matches the ligand name (spec §4.1, §7:
`LigandNotFound`). -/
inductive ExtractError where
  | ligandNotFound
deriving DecidableEq

instance {ε α : Type} [DecidableEq ε] [DecidableEq α] : DecidableEq (Except ε α) := fun a b =>
  match a, b with
  | .error e, .error f =>
      if h : e = f then .isTrue (by rw [h])
      else .isFalse (fun hc => h (by injection hc))
  | .error _, .ok _ => .isFalse (fun hc => Except.noConfusion hc)
  | .ok _, .error _ => .isFalse (fun hc => Except.noConfusion hc)
  | .ok x, .ok y =>
      if h : x = y then .isTrue (by rw [h])
      else .isFalse (fun hc => h (by injection hc))

/-- Rational addition computed on numerators and denominators
(kernel-reducible); equal to `a + b` by `qadd_eq`. -/
def qadd (a b : ℚ) : ℚ :=
  Rat.divInt (a.num * b.den + b.num * a.den) ((a.den : ℤ) * (b.den : ℤ))

/-- Rational subtraction computed on numerators and denominators
(kernel-reducible); equal to `a - b` by `qsub_eq`. -/
def qsub (a b : ℚ) : ℚ :=
  Rat.divInt (a.num * b.den - b.num * a.den) ((a.den : ℤ) * (b.den : ℤ))

/-- Rational multiplication computed on numerators and denominators
(kernel-reducible); equal to `a * b` by `qmul_eq`. -/
def qmul (a b : ℚ) : ℚ :=
  Rat.divInt (a.num * b.num) ((a.den : ℤ) * (b.den : ℤ))

/-- Division of a rational by a natural number (kernel-reducible); equal
to `a / n` by `qdivNat_eq`. -/
def qdivNat (a : ℚ) (n : ℕ) : ℚ :=
  Rat.divInt a.num ((a.den : ℤ) * (n : ℤ))

/-- Sum of a list of rationals. -/
def qsum (l : List ℚ) : ℚ := l.foldr qadd 0

theorem qadd_eq (a b : ℚ) : qadd a b = a + b := by
  have hz1 : (a.den : ℤ) ≠ 0 := Int.natCast_ne_zero.mpr a.den_nz
  have hz2 : (b.den : ℤ) ≠ 0 := Int.natCast_ne_zero.mpr b.den_nz
  rw [qadd, ← Rat.divInt_add_divInt a.num b.num hz1 hz2,
    Rat.num_divInt_den, Rat.num_divInt_den]

theorem qsub_eq (a b : ℚ) : qsub a b = a - b := by
  have hz1 : (a.den : ℤ) ≠ 0 := Int.natCast_ne_zero.mpr a.den_nz
  have hz2 : (b.den : ℤ) ≠ 0 := Int.natCast_ne_zero.mpr b.den_nz
  rw [qsub, ← Rat.divInt_sub_divInt a.num b.num hz1 hz2,
    Rat.num_divInt_den, Rat.num_divInt_den]

theorem qmul_eq (a b : ℚ) : qmul a b = a * b := by
  rw [qmul, ← Rat.divInt_mul_divInt', Rat.num_divInt_den, Rat.num_divInt_den]

theorem qdivNat_eq (a : ℚ) (n : ℕ) : qdivNat a n = a / (n : ℚ) := by
  have h := Rat.divInt_mul_divInt' a.num (a.den : ℤ) 1 (n : ℤ)
  rw [Rat.num_divInt_den, mul_one] at h
  rw [qdivNat, ← h, div_eq_mul_inv, Rat.inv_def', Rat.num_natCast, Rat.den_natCast,
    Nat.cast_one]

theorem divInt_natCast_eq (m n : ℕ) :
    Rat.divInt (m : ℤ) (n : ℤ) = (m : ℚ) / (n : ℚ) := by
  rw [Rat.divInt_eq_div]
  simp

/-- Modelled from the spec: the geometric centroid of a list of atoms, the
mean of their coordinates (spec §3 "Ligand", glossary "Centroid"). -/
def centroid (atoms : List Atom) : Atom :=
  { x := qdivNat (qsum (atoms.map Atom.x)) atoms.length
  , y := qdivNat (qsum (atoms.map Atom.y)) atoms.length
  , z := qdivNat (qsum (atoms.map Atom.z)) atoms.length }

/-- Squared Euclidean distance between two 3D points. -/
def sqDist (a b : Atom) : ℚ :=
  qadd (qadd (qmul (qsub a.x b.x) (qsub a.x b.x)) (qmul (qsub a.y b.y) (qsub a.y b.y)))
    (qmul (qsub a.z b.z) (qsub a.z b.z))

/-- Whether atom `a` lies within Euclidean distance `d` of point `c`,
expressed on squared distances; for `d < 0` no atom qualifies, matching
`dist ≤ d` on real nonnegative distances. -/
def atomWithin (a c : Atom) (d : ℚ) : Bool :=
  decide (0 ≤ d ∧ sqDist a c ≤ qmul d d)

/-- Modelled from the spec: locate the ligand residue by name; the
ambiguous-match policy being undocumented, the first match is taken
(spec §4.1, §9). -/
def findLigand (s : PdbStructure) (ligand_name : String) : Option Residue :=
  s.residues.find? (fun r => r.name == ligand_name)

/-- Candidacy test of one residue for the binding site: non-ligand,
non-solvent, and at least one atom within the distance cutoff of the
ligand centroid `c` (spec §4.1). -/
def bindingSiteCandidate (ligand_name : String) (c : Atom) (distance_cutoff : ℚ)
    (r : Residue) : Bool :=
  !(r.name == ligand_name) && !r.isSolvent &&
    r.atoms.any (fun a => atomWithin a c distance_cutoff)

/-- Modelled from the spec: per-structure binding-site extraction
(spec §4.1): locate the ligand residue by name (`LigandNotFound` if
absent); compute its atom-coordinate centroid; collect the residue
identifiers (as a duplicate-free list) of every non-ligand, non-solvent
residue having at least one atom within the distance cutoff of the
centroid. -/
def binding_site_residue_ids (s : PdbStructure) (ligand_name : String)
    (distance_cutoff : ℚ) : Except ExtractError (List ResidueId) :=
  match findLigand s ligand_name with
  | none => .error .ligandNotFound
  | some lig =>
      .ok (((s.residues.filter
        (bindingSiteCandidate ligand_name (centroid lig.atoms) distance_cutoff)).map
          Residue.resId).dedup)

/-- Modelled from the spec: multi-structure collection (spec §4.2): apply
per-structure extraction independently to each structure, in input order;
a failure on any structure propagates (spec §7: surfaced directly). -/
def mulitple_binding_sites_residue_ids (structures : List PdbStructure)
    (ligand_name : String) (distance_cutoff : ℚ) :
    Except ExtractError (List (List ResidueId)) :=
  structures.mapM (fun s => binding_site_residue_ids s ligand_name distance_cutoff)

/-- Occurrence count of residue identifier `r` across the per-structure
sets (spec §3 "Coverage tally"). -/
def residueCount (residue_ids : List (List ResidueId)) (r : ResidueId) : ℕ :=
  (residue_ids.filter (fun s => decide (r ∈ s))).length

/-- Modelled from the spec: coverage aggregation (spec §4.3): tally the
occurrence count per residue identifier across all sets; retain the
identifiers whose coverage ratio `count / total` (as a rational,
`Rat.divInt count total`) is at least `coverage_cutoff`; sort the
retained identifiers ascending. -/
def binding_site_residues_by_coverage (residue_ids : List (List ResidueId))
    (n_structures : ℕ) (coverage_cutoff : ℚ) : List ResidueId :=
  List.insertionSort (· ≤ ·)
    (((residue_ids.foldr (· ++ ·) []).dedup).filter (fun r =>
      decide (coverage_cutoff ≤ Rat.divInt (residueCount residue_ids r) n_structures)))

/-- The notebook's main function (cell 13): `n_structures` is the length
of the input list, fixed before extraction; extraction feeds aggregation.
The printing of the result is dropped; the consensus list is returned. -/
def binding_site_definition (structure_paths : List PdbStructure)
    (ligand_name : String) (distance_cutoff : ℚ) (coverage_cutoff : ℚ) :
    Except ExtractError (List ResidueId) :=
  (mulitple_binding_sites_residue_ids structure_paths ligand_name distance_cutoff).map
    (fun residue_ids =>
      binding_site_residues_by_coverage residue_ids structure_paths.length coverage_cutoff)

theorem mem_unionList {r : ResidueId} :
    ∀ {residue_ids : List (List ResidueId)},
      r ∈ residue_ids.foldr (· ++ ·) [] ↔ ∃ s ∈ residue_ids, r ∈ s := by
  intro residue_ids
  induction residue_ids with
  | nil => simp
  | cons s rest ih => simp [ih]

theorem mem_coverage_iff {residue_ids : List (List ResidueId)} {n : ℕ} {c : ℚ}
    {r : ResidueId} :
    r ∈ binding_site_residues_by_coverage residue_ids n c ↔
      (∃ s ∈ residue_ids, r ∈ s) ∧
        c ≤ (residueCount residue_ids r : ℚ) / (n : ℚ) := by
  unfold binding_site_residues_by_coverage
  rw [(List.perm_insertionSort (· ≤ ·) _).mem_iff, List.mem_filter, List.mem_dedup,
    mem_unionList, decide_eq_true_eq, divInt_natCast_eq]

theorem coverage_nodup (residue_ids : List (List ResidueId)) (n : ℕ) (c : ℚ) :
    (binding_site_residues_by_coverage residue_ids n c).Nodup := by
  unfold binding_site_residues_by_coverage
  exact ((List.perm_insertionSort (· ≤ ·) _).nodup_iff).mpr
    ((List.nodup_dedup _).filter _)

theorem coverage_sorted_lt (residue_ids : List (List ResidueId)) (n : ℕ) (c : ℚ) :
    (binding_site_residues_by_coverage residue_ids n c).Sorted (· < ·) :=
  (List.sorted_insertionSort (· ≤ ·) _).lt_of_le (coverage_nodup residue_ids n c)

/-- Claim C2: the coverage aggregation returns exactly the residue
identifiers that occur in some per-structure set and whose occurrence
count divided by the total is at least the coverage cutoff, and the
returned sequence is strictly ascending (hence deterministic). -/
theorem coverage_exact_membership_and_ascending
    (residue_ids : List (List ResidueId)) (n : ℕ) (c : ℚ) :
    (∀ r : ResidueId,
        r ∈ binding_site_residues_by_coverage residue_ids n c ↔
          ((∃ s ∈ residue_ids, r ∈ s) ∧
            c ≤ (residueCount residue_ids r : ℚ) / (n : ℚ))) ∧
      (binding_site_residues_by_coverage residue_ids n c).Sorted (· < ·) :=
  ⟨fun _ => mem_coverage_iff, coverage_sorted_lt residue_ids n c⟩

/-- Claim C3: every residue identifier in the consensus binding site
occurred in at least `ceil(coverage_cutoff * n_structures)` of the
per-structure residue sets. -/
theorem consensus_meets_ceil_coverage_bound (residue_ids : List (List ResidueId))
    (n : ℕ) (c : ℚ) (r : ResidueId)
    (h : r ∈ binding_site_residues_by_coverage residue_ids n c) :
    ⌈c * (n : ℚ)⌉ ≤ (residueCount residue_ids r : ℤ) := by
  obtain ⟨-, hc⟩ := mem_coverage_iff.mp h
  rw [Int.ceil_le]
  push_cast
  rcases Nat.eq_zero_or_pos n with hn | hn
  · subst hn
    simp only [Nat.cast_zero, mul_zero]
    exact Nat.cast_nonneg _
  · have hpos : (0 : ℚ) < (n : ℚ) := by exact_mod_cast hn
    exact (le_div_iff hpos).mp hc

/-- Witness for C3: sets `[[1], [1, 2]]`, total 2, cutoff 1/2, residue 2. -/
theorem consensus_meets_ceil_coverage_bound_witness :
    2 ∈ binding_site_residues_by_coverage [[1], [1, 2]] 2 (mkRat 1 2) ∧
      ⌈(mkRat 1 2 : ℚ) * ((2 : ℕ) : ℚ)⌉ ≤ (residueCount [[1], [1, 2]] 2 : ℤ) :=
  ⟨by decide, consensus_meets_ceil_coverage_bound [[1], [1, 2]] 2 (mkRat 1 2) 2 (by decide)⟩

/-- Claim C4: with coverage cutoff 0 the coverage aggregation returns
exactly the union of the per-structure residue sets. -/
theorem coverage_cutoff_zero_is_union (residue_ids : List (List ResidueId)) (n : ℕ)
    (hne : residue_ids ≠ []) (r : ResidueId) :
    r ∈ binding_site_residues_by_coverage residue_ids n 0 ↔ ∃ s ∈ residue_ids, r ∈ s := by
  rw [mem_coverage_iff]
  exact ⟨fun h => h.1,
    fun h => ⟨h, div_nonneg (Nat.cast_nonneg _) (Nat.cast_nonneg _)⟩⟩

/-- Witness for C4: sets `[[2, 1]]`, total 3, residue 1. -/
theorem coverage_cutoff_zero_is_union_witness :
    (([[2, 1]] : List (List ResidueId)) ≠ []) ∧
      (1 ∈ binding_site_residues_by_coverage [[2, 1]] 3 0 ↔
        ∃ s ∈ [[2, 1]], (1 : ResidueId) ∈ s) :=
  ⟨by decide, coverage_cutoff_zero_is_union [[2, 1]] 3 (by decide) 1⟩

theorem filter_length_eq_iff {α : Type} {p : α → Bool} :
    ∀ {l : List α}, (l.filter p).length = l.length ↔ ∀ a ∈ l, p a = true := by
  intro l
  induction l with
  | nil => simp
  | cons x xs ih =>
    by_cases hx : p x = true
    · simp [List.filter_cons, hx, ih]
    · have hle := List.length_filter_le p xs
      simp only [List.filter_cons, hx, Bool.false_eq_true, if_false, List.length_cons]
      constructor
      · intro h
        omega
      · intro h
        exact absurd (h x (List.mem_cons_self x xs)) hx

/-- Claim C5: with coverage cutoff 1 and total equal to the number of
per-structure sets, the coverage aggregation returns exactly the
intersection of the per-structure residue sets. -/
theorem coverage_cutoff_one_is_intersection (residue_ids : List (List ResidueId))
    (hne : residue_ids ≠ []) (r : ResidueId) :
    r ∈ binding_site_residues_by_coverage residue_ids residue_ids.length 1 ↔
      ∀ s ∈ residue_ids, r ∈ s := by
  have hlen : 0 < residue_ids.length := List.length_pos.mpr hne
  have hposq : (0 : ℚ) < (residue_ids.length : ℚ) := by exact_mod_cast hlen
  rw [mem_coverage_iff]
  constructor
  · rintro ⟨-, hc⟩
    have h1 : (residue_ids.length : ℚ) ≤ (residueCount residue_ids r : ℚ) := by
      have h0 := (le_div_iff hposq).mp hc
      rwa [one_mul] at h0
    have h2 : residue_ids.length ≤ residueCount residue_ids r := by exact_mod_cast h1
    have h3 : residueCount residue_ids r ≤ residue_ids.length :=
      List.length_filter_le _ residue_ids
    have h4 : (residue_ids.filter (fun s => decide (r ∈ s))).length = residue_ids.length :=
      le_antisymm h3 h2
    intro s hs
    simpa using filter_length_eq_iff.mp h4 s hs
  · intro hall
    obtain ⟨s0, hs0⟩ := List.exists_mem_of_ne_nil residue_ids hne
    refine ⟨⟨s0, hs0, hall s0 hs0⟩, ?_⟩
    have h4 : residueCount residue_ids r = residue_ids.length :=
      filter_length_eq_iff.mpr (fun s hs => by simpa using hall s hs)
    rw [h4, div_self (ne_of_gt hposq)]

/-- Witness for C5: sets `[[1, 2], [2, 3]]`, residue 2. -/
theorem coverage_cutoff_one_is_intersection_witness :
    (([[1, 2], [2, 3]] : List (List ResidueId)) ≠ []) ∧
      (2 ∈ binding_site_residues_by_coverage [[1, 2], [2, 3]] 2 1 ↔
        ∀ s ∈ [[1, 2], [2, 3]], (2 : ResidueId) ∈ s) :=
  ⟨by decide, coverage_cutoff_one_is_intersection [[1, 2], [2, 3]] (by decide) 2⟩

/-- Claim C6: for fixed inputs, raising the coverage cutoff never
increases the size of the consensus binding site. -/
theorem consensus_size_antitone_in_coverage_cutoff (residue_ids : List (List ResidueId))
    (n : ℕ) (c1 c2 : ℚ) (h : c1 ≤ c2) :
    (binding_site_residues_by_coverage residue_ids n c2).length ≤
      (binding_site_residues_by_coverage residue_ids n c1).length := by
  unfold binding_site_residues_by_coverage
  rw [(List.perm_insertionSort (· ≤ ·) _).length_eq,
    (List.perm_insertionSort (· ≤ ·) _).length_eq]
  refine (List.monotone_filter_right _ (fun r hr => ?_)).length_le
  simp only [decide_eq_true_eq] at hr ⊢
  exact le_trans h hr

/-- Witness for C6: sets `[[1], [1, 2]]`, total 2, cutoffs 1/2 ≤ 1. -/
theorem consensus_size_antitone_in_coverage_cutoff_witness :
    (mkRat 1 2 : ℚ) ≤ 1 ∧
      (binding_site_residues_by_coverage [[1], [1, 2]] 2 1).length ≤
        (binding_site_residues_by_coverage [[1], [1, 2]] 2 (mkRat 1 2)).length :=
  ⟨by decide,
    consensus_size_antitone_in_coverage_cutoff [[1], [1, 2]] 2 (mkRat 1 2) 1 (by decide)⟩

theorem length_le_of_nodup_subset {l1 l2 : List ResidueId} (h1 : l1.Nodup)
    (hsub : l1 ⊆ l2) : l1.length ≤ l2.length := by
  calc l1.length = l1.toFinset.card := (List.toFinset_card_of_nodup h1).symm
    _ ≤ l2.toFinset.card := Finset.card_le_card (fun x hx => by
        rw [List.mem_toFinset] at hx ⊢
        exact hsub hx)
    _ ≤ l2.length := List.toFinset_card_le l2

theorem atomWithin_mono {a c : Atom} {d1 d2 : ℚ} (h : d1 ≤ d2)
    (hw : atomWithin a c d1 = true) : atomWithin a c d2 = true := by
  simp only [atomWithin, decide_eq_true_eq] at hw ⊢
  obtain ⟨h0, hs⟩ := hw
  refine ⟨h0.trans h, hs.trans ?_⟩
  rw [qmul_eq, qmul_eq]
  exact mul_le_mul h h h0 (h0.trans h)

theorem bindingSiteCandidate_mono {ligand_name : String} {c : Atom} {d1 d2 : ℚ}
    {r : Residue} (h : d1 ≤ d2)
    (hr : bindingSiteCandidate ligand_name c d1 r = true) :
    bindingSiteCandidate ligand_name c d2 r = true := by
  simp only [bindingSiteCandidate, Bool.and_eq_true, List.any_eq_true] at hr ⊢
  obtain ⟨⟨hn, hs⟩, a, ha, hw⟩ := hr
  exact ⟨⟨hn, hs⟩, a, ha, atomWithin_mono h hw⟩

/-- Claim C7: for one structure and ligand, per-structure extraction with
a larger distance cutoff yields a residue set at least as large. -/
theorem site_size_monotone_in_distance_cutoff (s : PdbStructure)
    (ligand_name : String) (d1 d2 : ℚ) (hd : d1 ≤ d2)
    (ids1 ids2 : List ResidueId)
    (h1 : binding_site_residue_ids s ligand_name d1 = .ok ids1)
    (h2 : binding_site_residue_ids s ligand_name d2 = .ok ids2) :
    ids1.length ≤ ids2.length := by
  unfold binding_site_residue_ids at h1 h2
  cases hf : findLigand s ligand_name with
  | none =>
    rw [hf] at h1
    exact absurd h1 (by simp)
  | some lig =>
    rw [hf] at h1 h2
    rw [Except.ok.injEq] at h1 h2
    subst h1
    subst h2
    refine length_le_of_nodup_subset (List.nodup_dedup _) (fun x hx => ?_)
    rw [List.mem_dedup, List.mem_map] at hx ⊢
    obtain ⟨r, hr, rfl⟩ := hx
    rw [List.mem_filter] at hr
    exact ⟨r, List.mem_filter.mpr ⟨hr.1, bindingSiteCandidate_mono hd hr.2⟩, rfl⟩

/-- A sample ligand residue at the origin, used by the witnesses. -/
def sampleLigand : Residue :=
  { name := "LIG", resId := 1, isSolvent := false
  , atoms := [{ x := 0, y := 0, z := 0 }] }

/-- A sample protein residue at distance 1 from the origin. -/
def sampleNear : Residue :=
  { name := "ALA", resId := 5, isSolvent := false
  , atoms := [{ x := 1, y := 0, z := 0 }] }

/-- A sample protein residue at distance 2 from the origin. -/
def sampleFar : Residue :=
  { name := "GLY", resId := 9, isSolvent := false
  , atoms := [{ x := 2, y := 0, z := 0 }] }

/-- A sample solvent residue at the origin. -/
def sampleWater : Residue :=
  { name := "HOH", resId := 7, isSolvent := true
  , atoms := [{ x := 0, y := 0, z := 0 }] }

/-- A sample structure containing the ligand, two protein residues and a
solvent residue. -/
def sampleStructure : PdbStructure :=
  ⟨[sampleLigand, sampleNear, sampleFar, sampleWater]⟩

/-- A sample structure with no residue named `LIG`. -/
def sampleNoLigand : PdbStructure := ⟨[sampleNear, sampleFar]⟩

/-- Witness for C7: `sampleStructure`, cutoffs 1 ≤ 2, extracted sets
`[5]` and `[5, 9]`. -/
theorem site_size_monotone_in_distance_cutoff_witness :
    (1 : ℚ) ≤ 2 ∧ ([5] : List ResidueId).length ≤ ([5, 9] : List ResidueId).length :=
  ⟨by decide,
    site_size_monotone_in_distance_cutoff sampleStructure "LIG" 1 2 (by decide)
      [5] [5, 9] rfl rfl⟩

/-- Claim C8: on an empty input list of structures the pipeline returns an
empty consensus binding site, and no error: the coverage-ratio comparison
is never reached because the tallied identifier set is empty. -/
theorem empty_input_gives_empty_consensus (ligand_name : String) (d c : ℚ) :
    binding_site_definition [] ligand_name d c = .ok [] := rfl

/-- Claim C9: when no residue of a structure matches the ligand name,
per-structure extraction fails with `ligandNotFound` instead of returning
a residue set. -/
theorem missing_ligand_gives_not_found (s : PdbStructure) (ligand_name : String)
    (d : ℚ) (h : ∀ r ∈ s.residues, r.name ≠ ligand_name) :
    binding_site_residue_ids s ligand_name d = .error .ligandNotFound := by
  unfold binding_site_residue_ids
  have hf : findLigand s ligand_name = none := by
    unfold findLigand
    rw [List.find?_eq_none]
    intro r hr
    simpa using h r hr
  rw [hf]

/-- Witness for C9: `sampleNoLigand` contains no residue named `LIG`. -/
theorem missing_ligand_gives_not_found_witness :
    (∀ r ∈ sampleNoLigand.residues, r.name ≠ "LIG") ∧
      binding_site_residue_ids sampleNoLigand "LIG" 1 = .error .ligandNotFound :=
  ⟨by decide, missing_ligand_gives_not_found sampleNoLigand "LIG" 1 (by decide)⟩

theorem mapM_ok_length {α β : Type} (f : α → Except ExtractError β) :
    ∀ (l : List α) (res : List β), l.mapM f = .ok res → res.length = l.length := by
  intro l
  induction l with
  | nil =>
    intro res h
    simp only [List.mapM_nil, pure, Except.pure, Except.ok.injEq] at h
    rw [← h]
    rfl
  | cons x xs ih =>
    intro res h
    rw [List.mapM_cons] at h
    cases hfx : f x with
    | error er =>
      rw [hfx] at h
      simp only [bind, Except.bind] at h
      exact absurd h (by simp)
    | ok y =>
      rw [hfx] at h
      cases hxs : xs.mapM f with
      | error er =>
        rw [hxs] at h
        simp only [bind, Except.bind, Functor.map, Except.map] at h
        exact absurd h (by simp)
      | ok ys =>
        rw [hxs] at h
        simp only [bind, Except.bind, Functor.map, Except.map, pure, Except.pure,
          Except.ok.injEq] at h
        rw [← h, List.length_cons, ih ys hxs, List.length_cons]

/-- Claim C10: `binding_site_definition` hands the coverage aggregation a
total equal to the length of the input list, fixed before extraction; the
per-structure sets are one per input structure. -/
theorem aggregation_total_is_input_count (structure_paths : List PdbStructure)
    (ligand_name : String) (d c : ℚ) (residue_ids : List (List ResidueId))
    (h : mulitple_binding_sites_residue_ids structure_paths ligand_name d =
      .ok residue_ids) :
    binding_site_definition structure_paths ligand_name d c =
        .ok (binding_site_residues_by_coverage residue_ids
          structure_paths.length c) ∧
      residue_ids.length = structure_paths.length := by
  constructor
  · unfold binding_site_definition
    rw [h]
    rfl
  · exact mapM_ok_length _ structure_paths residue_ids h

/-- Witness for C10: the one-structure input `[sampleStructure]`. -/
theorem aggregation_total_is_input_count_witness :
    mulitple_binding_sites_residue_ids [sampleStructure] "LIG" 1 = .ok [[5]] ∧
      (binding_site_definition [sampleStructure] "LIG" 1 (mkRat 1 2) =
          .ok (binding_site_residues_by_coverage [[5]] [sampleStructure].length
            (mkRat 1 2)) ∧
        ([[5]] : List (List ResidueId)).length = [sampleStructure].length) :=
  ⟨rfl, aggregation_total_is_input_count [sampleStructure] "LIG" 1 (mkRat 1 2) [[5]] rfl⟩
